import Mathlib

/- Formal model of the RuntimeImageLoader plugin core:
   URuntimeImageReader (Source/RuntimeImageLoader/Private/RuntimeImageReader.cpp) and
   URuntimeImageLoader (Source/RuntimeImageLoader/Private/RuntimeImageLoader.cpp).
   Machine state is embedded as explicit records; the worker thread and the
   game-thread tick interleave at action granularity in a trace semantics. -/

namespace RuntimeImageLoaderModel

/-- Raw image formats that appear in the switch statement of
URuntimeImageReader.BlockTillAllRequestsFinished; OtherFormat stands for any
member of the engine enum not named in that switch (it falls to the default
branch, producing PF_Unknown). -/
inductive ERawImageFormat
  | G8
  | G16
  | BGRA8
  | BGRE8
  | RGBA16
  | RGBA16F
  | OtherFormat
deriving DecidableEq

/-- GPU pixel formats that the reader can select. -/
inductive EPixelFormat
  | PF_Unknown
  | PF_B8G8R8A8
  | PF_G8
  | PF_G16
  | PF_R16G16B16A16_SINT
  | PF_FloatRGBA
deriving DecidableEq

/-- A pixel buffer together with the raw-image encoding its bytes are laid out in
(the encoding records what FImage.CopyTo produced). -/
structure PixelBuffer where
  encoding : ERawImageFormat
  bytes : List Nat
deriving DecidableEq

/-- FRuntimeImageData as used by the reader: dimensions, decoded format, the
SRGB flag and the raw pixel buffer. -/
structure RuntimeImageData where
  sizeX : Nat
  sizeY : Nat
  format : ERawImageFormat
  srgb : Bool
  buffer : PixelBuffer
deriving DecidableEq

/-- The texture object observable state: the fields of the UTexture2D placeholder
plus the device-side data written by AsyncReallocateTexture. -/
structure Texture where
  imageFilename : String
  pixelFormat : EPixelFormat
  sizeX : Nat
  sizeY : Nat
  srgb : Bool
  mipData : List Nat
deriving DecidableEq

/-- FImageReadRequest: filename plus the UI usage hint. -/
structure ImageReadRequest where
  imageFilename : String
  bForUI : Bool
deriving DecidableEq

/-- FImageReadResult: filename, error string (empty when no error) and the
optional produced texture. -/
structure ImageReadResult where
  imageFilename : String
  outError : String
  outTexture : Option Texture
deriving DecidableEq

/-- A default-constructed FImageReadResult. -/
def defaultReadResult : ImageReadResult :=
  { imageFilename := "", outError := "", outTexture := none }

/-- External collaborator functions of the worker. importFileAsImage models
FRuntimeImageUtils.ImportFileAsImage (decoder collaborator, RuntimeImageUtils.cpp
is not under src): it returns the decoded image data together with an error
string, the error being present exactly when the string is non-empty.
convertPixels models the byte conversion performed by FImage.CopyTo. -/
structure DecoderEnv where
  importFileAsImage : String → RuntimeImageData × String
  convertPixels : ERawImageFormat → ERawImageFormat → List Nat → List Nat

/-- FImage.CopyTo: re-encodes a pixel buffer into the destination raw format;
the destination buffer carries the destination encoding by the CopyTo contract,
while the byte-level conversion is the collaborator function. -/
def copyTo (conv : ERawImageFormat → ERawImageFormat → List Nat → List Nat)
    (b : PixelBuffer) (dst : ERawImageFormat) : PixelBuffer :=
  { encoding := dst, bytes := conv b.encoding dst b.bytes }

/-- Modelled from the spec: FRuntimeImageUtils.CreateDummyTexture
(RuntimeImageUtils.cpp is not under src) allocates an empty resource placeholder
object sized and typed for the given pixel layout, without touching device
memory. -/
def createDummyTexture (imageFilename : String) (pixelFormat : EPixelFormat) : Texture :=
  { imageFilename := imageFilename, pixelFormat := pixelFormat,
    sizeX := 0, sizeY := 0, srgb := false, mipData := [] }

/-- URuntimeImageReader.AsyncReallocateTexture: creates the RHI texture with the
image dimensions, the chosen pixel format, the SRGB creation flag taken from
ImageData.SRGB, and mip 0 filled from ImageData.RawData, then binds it to the
placeholder. -/
def AsyncReallocateTexture (tex : Texture) (imageData : RuntimeImageData)
    (pixelFormat : EPixelFormat) : Texture :=
  { tex with
      pixelFormat := pixelFormat
      sizeX := imageData.sizeX
      sizeY := imageData.sizeY
      srgb := imageData.srgb
      mipData := imageData.buffer.bytes }

/-- The pixel-format switch of BlockTillAllRequestsFinished (lines 122 to 131 of
RuntimeImageReader.cpp), including the default branch. -/
def determinePixelFormat (format : ERawImageFormat) (bForUI : Bool) : EPixelFormat :=
  match format with
  | ERawImageFormat.G8 =>
      if bForUI then EPixelFormat.PF_B8G8R8A8 else EPixelFormat.PF_G8
  | ERawImageFormat.G16 => EPixelFormat.PF_G16
  | ERawImageFormat.BGRA8 => EPixelFormat.PF_B8G8R8A8
  | ERawImageFormat.BGRE8 => EPixelFormat.PF_B8G8R8A8
  | ERawImageFormat.RGBA16 =>
      if bForUI then EPixelFormat.PF_B8G8R8A8 else EPixelFormat.PF_R16G16B16A16_SINT
  | ERawImageFormat.RGBA16F => EPixelFormat.PF_FloatRGBA
  | ERawImageFormat.OtherFormat => EPixelFormat.PF_Unknown

/-- The exact error text the reader stores when the pixel format is PF_Unknown. -/
def corruptedError : String := "Image data is corrupted. Please contact devs"

/-- The UI branch of the reader loop (lines 166 to 174): when bForUI holds, the
pixel buffer is re-encoded to BGRA8 via FImage.CopyTo and the SRGB flag is set;
otherwise the image data is left untouched. -/
def uiTransform (env : DecoderEnv) (bForUI : Bool) (imageData : RuntimeImageData) :
    RuntimeImageData :=
  if bForUI then
    { imageData with
        buffer := copyTo env.convertPixels imageData.buffer ERawImageFormat.BGRA8
        srgb := true }
  else imageData

/-- Processing of one dequeued request in BlockTillAllRequestsFinished.
The returned result is the entry emplaced into Results at the top of the body
(mutated in place by the loop); the returned Bool is true exactly when the body
executes the early return because no constructed texture became available
(textureAvailable is the oracle for whether a placeholder lands). -/
def processRequest (env : DecoderEnv) (request : ImageReadRequest)
    (textureAvailable : Bool) : ImageReadResult × Bool :=
  if 0 < (env.importFileAsImage request.imageFilename).2.length then
    ({ imageFilename := request.imageFilename,
       outError := (env.importFileAsImage request.imageFilename).2,
       outTexture := none }, false)
  else if determinePixelFormat (env.importFileAsImage request.imageFilename).1.format
            request.bForUI = EPixelFormat.PF_Unknown then
    ({ imageFilename := request.imageFilename,
       outError := corruptedError,
       outTexture := none }, false)
  else if textureAvailable then
    ({ imageFilename := request.imageFilename,
       outError := "",
       outTexture := some (AsyncReallocateTexture
         { createDummyTexture request.imageFilename
             (determinePixelFormat (env.importFileAsImage request.imageFilename).1.format
               request.bForUI) with
             sizeX := (env.importFileAsImage request.imageFilename).1.sizeX
             sizeY := (env.importFileAsImage request.imageFilename).1.sizeY }
         (uiTransform env request.bForUI (env.importFileAsImage request.imageFilename).1)
         (determinePixelFormat (env.importFileAsImage request.imageFilename).1.format
           request.bForUI)) }, false)
  else
    ({ imageFilename := request.imageFilename, outError := "", outTexture := none }, true)

/-- The inner dequeue loop of BlockTillAllRequestsFinished over a request queue:
returns the results array, the requests left in the queue, and whether the pass
completed (false exactly when the early return aborted the pass). The avail list
supplies the texture-availability oracle per processed request. -/
def processRequests (env : DecoderEnv) :
    List ImageReadRequest → List Bool → List ImageReadResult →
    List ImageReadResult × List ImageReadRequest × Bool
  | [], _, acc => (acc, [], true)
  | request :: rest, avail, acc =>
    if (processRequest env request (avail.headD true)).2 then
      (acc ++ [(processRequest env request (avail.headD true)).1], rest, false)
    else
      processRequests env rest avail.tail
        (acc ++ [(processRequest env request (avail.headD true)).1])

/-- URuntimeImageReader observable state: the request queue, the results array,
the atomic bCompletedWork flag, and the number of times the thread semaphore has
been signalled. -/
structure ReaderState where
  requests : List ImageReadRequest
  results : List ImageReadResult
  bCompletedWork : Bool
  semSignals : Nat
deriving DecidableEq

/-- URuntimeImageReader.AddRequest: enqueues the request and clears the
completed-work flag. It does not signal the thread semaphore. -/
def AddRequest (request : ImageReadRequest) (s : ReaderState) : ReaderState :=
  { s with requests := s.requests ++ [request], bCompletedWork := false }

/-- URuntimeImageReader.GetResult: under the precondition that the results array
is non-empty (asserted by ensure), pops and returns the last buffered result;
none models the precondition violation. -/
def GetResult (s : ReaderState) : Option (ImageReadResult × ReaderState) :=
  match s.results.getLast? with
  | none => none
  | some r => some (r, { s with results := s.results.dropLast })

/-- URuntimeImageReader.Clear: empties the request queue and the results array
(the completed-work flag and the semaphore are untouched). -/
def Clear (s : ReaderState) : ReaderState :=
  { s with requests := [], results := [] }

/-- URuntimeImageReader.Trigger: signals the thread semaphore. -/
def Trigger (s : ReaderState) : ReaderState :=
  { s with semSignals := s.semSignals + 1 }

/-- URuntimeImageReader.IsWorkCompleted. -/
def IsWorkCompleted (s : ReaderState) : Bool := s.bCompletedWork

/-- URuntimeImageReader.BlockTillAllRequestsFinished: while the completed flag is
down, drain the request queue, then raise the flag exactly when the queue is
empty; the early return (no placeholder available) leaves the flag down and the
remaining requests queued. -/
def BlockTillAllRequestsFinished (env : DecoderEnv) (avail : List Bool)
    (s : ReaderState) : ReaderState :=
  if s.bCompletedWork then s
  else
    { s with
        results := (processRequests env s.requests avail s.results).1
        requests := (processRequests env s.requests avail s.results).2.1
        bCompletedWork := (processRequests env s.requests avail s.results).2.2 }

/-- FLoadImageRequest as held by the loader: an identity for the bound
completion delegate plus the request parameters. -/
structure LoadImageRequest where
  id : Nat
  imageFilename : String
  bForUI : Bool
deriving DecidableEq

/-- URuntimeImageLoader observable state: the pending request queue, the single
ActiveRequest slot, and the owned reader. -/
structure SchedulerState where
  pending : List LoadImageRequest
  active : Option LoadImageRequest
  reader : ReaderState
deriving DecidableEq

/-- Conversion of the active request parameters into an FImageReadRequest. -/
def toReadRequest (r : LoadImageRequest) : ImageReadRequest :=
  { imageFilename := r.imageFilename, bForUI := r.bForUI }

/-- Observable events of the scheduler: a request being handed to the worker,
and a completion delegate being executed with a result. -/
inductive SysEvent
  | dispatched (id : Nat)
  | completed (id : Nat) (result : ImageReadResult)
deriving DecidableEq

/-- First half of URuntimeImageLoader.Tick (lines 182 to 190): when the
ActiveRequest slot is empty and the pending queue is not, dequeue one request
into the slot, hand it to the reader and trigger the worker. -/
def TickDispatch (s : SchedulerState) : SchedulerState × List SysEvent :=
  match s.active, s.pending with
  | none, p :: ps =>
      ({ pending := ps, active := some p,
         reader := Trigger (AddRequest (toReadRequest p) s.reader) },
       [SysEvent.dispatched p.id])
  | _, _ => (s, [])

/-- Second half of URuntimeImageLoader.Tick (lines 192 to 202): when the slot is
occupied and the reader reports completed work, pop the result, execute the
completion delegate with it and invalidate the slot. -/
def TickComplete (s : SchedulerState) : SchedulerState × List SysEvent :=
  match s.active with
  | some a =>
      if s.reader.bCompletedWork then
        ({ s with
             active := none
             reader := { s.reader with results := s.reader.results.dropLast } },
         [SysEvent.completed a.id (s.reader.results.getLastD defaultReadResult)])
      else (s, [])
  | none => (s, [])

/-- URuntimeImageLoader.Tick: the dispatch check followed by the completion
check, events in execution order. -/
def Tick (s : SchedulerState) : SchedulerState × List SysEvent :=
  ((TickComplete (TickDispatch s).1).1,
   (TickDispatch s).2 ++ (TickComplete (TickDispatch s).1).2)

/-- Out parameters of the public load entry points. -/
structure ImageOutParams where
  outTexture : Option Texture
  bSuccess : Bool
  outError : String
deriving DecidableEq

/-- URuntimeImageLoader.LoadImageSync (lines 141 to 159): drain outstanding
work, enqueue the single request straight to the reader (bypassing the pending
queue and ActiveRequest), drain again, pop the buffered result and fill the out
parameters from it. The two avail lists are the texture-availability oracles of
the two drains. -/
def LoadImageSync (env : DecoderEnv) (avail1 avail2 : List Bool)
    (imageFilename : String) (bForUI : Bool) (s : ReaderState) :
    ReaderState × ImageOutParams :=
  ({ BlockTillAllRequestsFinished env avail2
       (AddRequest { imageFilename := imageFilename, bForUI := bForUI }
         (BlockTillAllRequestsFinished env avail1 s)) with
       results := (BlockTillAllRequestsFinished env avail2
         (AddRequest { imageFilename := imageFilename, bForUI := bForUI }
           (BlockTillAllRequestsFinished env avail1 s))).results.dropLast },
   { outTexture := ((BlockTillAllRequestsFinished env avail2
         (AddRequest { imageFilename := imageFilename, bForUI := bForUI }
           (BlockTillAllRequestsFinished env avail1 s))).results.getLastD
         defaultReadResult).outTexture
     bSuccess := ((BlockTillAllRequestsFinished env avail2
         (AddRequest { imageFilename := imageFilename, bForUI := bForUI }
           (BlockTillAllRequestsFinished env avail1 s))).results.getLastD
         defaultReadResult).outError == ""
     outError := ((BlockTillAllRequestsFinished env avail2
         (AddRequest { imageFilename := imageFilename, bForUI := bForUI }
           (BlockTillAllRequestsFinished env avail1 s))).results.getLastD
         defaultReadResult).outError })

/-- The warning URuntimeImageLoader.CancelAll logs on Android. -/
def androidCancelWarning : String :=
  "Cancelling http requests is not supported on Android platform!"

/-- URuntimeImageLoader.CancelAll (lines 161 to 176): on the Android carve-out
platform, log the warning and return without touching any state; elsewhere
empty the pending queue, invalidate the ActiveRequest slot without executing its
delegate, and clear the reader buffers. The second component is the list of log
lines emitted. -/
def CancelAll (isAndroid : Bool) (s : SchedulerState) : SchedulerState × List String :=
  if isAndroid then (s, [androidCancelWarning])
  else ({ pending := [], active := none, reader := Clear s.reader }, [])

/-- URuntimeImageLoader.LoadImageAsync (lines 26 to 77): when the world context
object is invalid the call returns at once, otherwise it builds the request with
its bound completion delegate and appends it to the pending queue. The out
parameters are only ever written by the delegate, never by this call. -/
def LoadImageAsync (worldContextValid : Bool) (request : LoadImageRequest)
    (s : SchedulerState) (outs : ImageOutParams) : SchedulerState × ImageOutParams :=
  if worldContextValid then
    ({ s with pending := s.pending ++ [request] }, outs)
  else (s, outs)

/-- The error URuntimeImageLoader.LoadHDRIAsync reports on Android. -/
def cubemapAndroidError : String :=
  "Loading cubemaps is not supported on Android platform! Please build plugin from source to change this behaviour.."

/-- URuntimeImageLoader.LoadHDRIAsync (lines 79 to 139): invalid world context
returns at once; on Android the call fails immediately with the cubemap error
and does not enqueue; otherwise the request joins the pending queue. -/
def LoadHDRIAsync (worldContextValid isAndroid : Bool) (request : LoadImageRequest)
    (s : SchedulerState) (outs : ImageOutParams) : SchedulerState × ImageOutParams :=
  if worldContextValid then
    if isAndroid then
      (s, { outs with bSuccess := false, outError := cubemapAndroidError })
    else ({ s with pending := s.pending ++ [request] }, outs)
  else (s, outs)

/-- Interleavable system actions: a game-thread Tick, a pass of the worker
thread loop (with its texture-availability oracle), and an asynchronous enqueue
landing in the pending queue. -/
inductive SysAction
  | tick
  | workerRun (avail : List Bool)
  | enqueue (request : LoadImageRequest)

/-- One system action applied to the combined state, with its observable
events. -/
def stepAction (env : DecoderEnv) (s : SchedulerState) : SysAction → SchedulerState × List SysEvent
  | SysAction.tick => Tick s
  | SysAction.workerRun avail =>
      ({ s with reader := BlockTillAllRequestsFinished env avail s.reader }, [])
  | SysAction.enqueue request =>
      ({ s with pending := s.pending ++ [request] }, [])

/-- Run a list of system actions from a state, collecting events in order. -/
def runTrace (env : DecoderEnv) : SchedulerState → List SysAction → SchedulerState × List SysEvent
  | s, [] => (s, [])
  | s, a :: rest =>
      ((runTrace env (stepAction env s a).1 rest).1,
       (stepAction env s a).2 ++ (runTrace env (stepAction env s a).1 rest).2)

/-- Identities of the dispatch events of a trace, in order. -/
def evDispatchIds (events : List SysEvent) : List Nat :=
  events.filterMap fun e =>
    match e with
    | SysEvent.dispatched i => some i
    | SysEvent.completed _ _ => none

/-- Identities of the completion events of a trace, in order. -/
def evCompletedIds (events : List SysEvent) : List Nat :=
  events.filterMap fun e =>
    match e with
    | SysEvent.dispatched _ => none
    | SysEvent.completed i _ => some i

/-- Identities of the requests enqueued by a list of actions, in order. -/
def enqIds (acts : List SysAction) : List Nat :=
  acts.filterMap fun a =>
    match a with
    | SysAction.enqueue r => some r.id
    | _ => none

/-- Identity list of an optional request slot. -/
def optIds : Option LoadImageRequest → List Nat
  | none => []
  | some r => [r.id]

/-- One when the ActiveRequest slot is occupied, zero otherwise. -/
def activeBit (s : SchedulerState) : Nat :=
  if s.active.isSome then 1 else 0

/-- Identities of the requests that are pending or active in a scheduler state,
the population whose delegates CancelAll detaches. -/
def cancelledIds (s : SchedulerState) : List Nat :=
  optIds s.active ++ s.pending.map LoadImageRequest.id

/-- Boolean membership in a list of identities. -/
def memId (i : Nat) : List Nat → Bool
  | [] => false
  | j :: rest => if i = j then true else memId i rest

/- Sample collaborator environments and states used by the concrete witnesses
and counterexamples below. -/

/-- Decoder stub returning a small BGRA8 image for any filename. -/
def sampleEnvBGRA : DecoderEnv :=
  { importFileAsImage := fun _ =>
      ({ sizeX := 2
         sizeY := 1
         format := ERawImageFormat.BGRA8
         srgb := false
         buffer := { encoding := ERawImageFormat.BGRA8, bytes := [9, 9] } }, "")
    convertPixels := fun _ _ bytes => bytes }

/-- Decoder stub returning a small G16 image for any filename. -/
def sampleEnvG16 : DecoderEnv :=
  { importFileAsImage := fun _ =>
      ({ sizeX := 2
         sizeY := 2
         format := ERawImageFormat.G16
         srgb := false
         buffer := { encoding := ERawImageFormat.G16, bytes := [7, 7] } }, "")
    convertPixels := fun _ _ bytes => bytes }

/-- Decoder stub returning an image whose format has no GPU mapping. -/
def sampleEnvUnsupported : DecoderEnv :=
  { importFileAsImage := fun _ =>
      ({ sizeX := 4
         sizeY := 4
         format := ERawImageFormat.OtherFormat
         srgb := false
         buffer := { encoding := ERawImageFormat.OtherFormat, bytes := [] } }, "")
    convertPixels := fun _ _ bytes => bytes }

/-- Decoder stub failing with a decode error for any filename. -/
def sampleEnvDecodeFail : DecoderEnv :=
  { importFileAsImage := fun _ =>
      ({ sizeX := 0
         sizeY := 0
         format := ERawImageFormat.BGRA8
         srgb := false
         buffer := { encoding := ERawImageFormat.BGRA8, bytes := [] } }, "invalid header")
    convertPixels := fun _ _ bytes => bytes }

/-- An idle reader with no queued work. -/
def emptyReader : ReaderState :=
  { requests := [], results := [], bCompletedWork := true, semSignals := 0 }

/-- A sample worker request. -/
def sampleReadRequest : ImageReadRequest := { imageFilename := "a.png", bForUI := false }

/-- Two sample buffered results. -/
def sampleResult1 : ImageReadResult :=
  { imageFilename := "a.png", outError := "", outTexture := none }

def sampleResult2 : ImageReadResult :=
  { imageFilename := "b.png", outError := "boom", outTexture := none }

/-- A reader with two buffered results, sampleResult2 completed last. -/
def sampleReaderTwo : ReaderState :=
  { requests := [], results := [sampleResult1, sampleResult2], bCompletedWork := true, semSignals := 0 }

lemma memId_iff (i : Nat) : ∀ l : List Nat, memId i l = true ↔ i ∈ l := by
  intro l
  induction l with
  | nil => simp [memId]
  | cons j rest ih =>
      by_cases h : i = j
      · simp [memId, h]
      · simp [memId, h, ih]

lemma string_ne_of_length_pos {s : String} (h : 0 < s.length) : s ≠ "" := by
  intro he
  rw [he] at h
  simp at h

lemma processRequest_filename (env : DecoderEnv) (r : ImageReadRequest) (a : Bool) :
    (processRequest env r a).1.imageFilename = r.imageFilename := by
  unfold processRequest
  split
  · rfl
  · split
    · rfl
    · split <;> rfl

lemma processRequest_true_not_aborted (env : DecoderEnv) (r : ImageReadRequest) :
    (processRequest env r true).2 = false := by
  unfold processRequest
  split
  · rfl
  · split <;> simp

lemma processRequest_true_complete (env : DecoderEnv) (r : ImageReadRequest) :
    (processRequest env r true).1.outTexture ≠ none ∨
      (processRequest env r true).1.outError ≠ "" := by
  unfold processRequest
  split
  · next h => exact Or.inr (string_ne_of_length_pos h)
  · split
    · exact Or.inr (by simp [corruptedError])
    · exact Or.inl (by simp)

lemma headD_all_true {avail : List Bool} (h : ∀ b ∈ avail, b = true) :
    avail.headD true = true := by
  cases avail with
  | nil => rfl
  | cons b rest => exact h b (List.mem_cons_self b rest)

lemma tail_all_true {avail : List Bool} (h : ∀ b ∈ avail, b = true) :
    ∀ b ∈ avail.tail, b = true := by
  intro b hb
  exact h b (List.mem_of_mem_tail hb)

lemma processRequests_append (env : DecoderEnv) :
    ∀ (reqs : List ImageReadRequest) (avail : List Bool) (acc : List ImageReadResult),
      (processRequests env reqs avail acc).1 = acc ++ (processRequests env reqs avail []).1 ∧
      (processRequests env reqs avail acc).2 = (processRequests env reqs avail []).2
  | [], avail, acc => by simp [processRequests]
  | request :: rest, avail, acc => by
      by_cases h : (processRequest env request (avail.headD true)).2 = true
      · simp only [processRequests, h, if_true]
        simp
      · rw [Bool.not_eq_true] at h
        have ih1 := processRequests_append env rest avail.tail
          (acc ++ [(processRequest env request (avail.headD true)).1])
        have ih2 := processRequests_append env rest avail.tail
          ([(processRequest env request (avail.headD true)).1])
        simp only [processRequests, h, Bool.false_eq_true, if_false, List.nil_append]
        constructor
        · rw [ih1.1, ih2.1, List.append_assoc]
        · rw [ih1.2, ih2.2]

lemma processRequests_all_true (env : DecoderEnv) :
    ∀ (reqs : List ImageReadRequest) (avail : List Bool) (acc : List ImageReadResult),
      (∀ b ∈ avail, b = true) →
      processRequests env reqs avail acc =
        (acc ++ reqs.map (fun r => (processRequest env r true).1), [], true)
  | [], avail, acc, _ => by simp [processRequests]
  | request :: rest, avail, acc, h => by
      have hhead : avail.headD true = true := headD_all_true h
      have ih := processRequests_all_true env rest avail.tail
        (acc ++ [(processRequest env request (avail.headD true)).1]) (tail_all_true h)
      rw [hhead] at ih
      simp only [processRequests, hhead, processRequest_true_not_aborted,
        Bool.false_eq_true, if_false]
      rw [ih]
      simp

lemma evDispatchIds_append (l1 l2 : List SysEvent) :
    evDispatchIds (l1 ++ l2) = evDispatchIds l1 ++ evDispatchIds l2 :=
  List.filterMap_append l1 l2 _

lemma evCompletedIds_append (l1 l2 : List SysEvent) :
    evCompletedIds (l1 ++ l2) = evCompletedIds l1 ++ evCompletedIds l2 :=
  List.filterMap_append l1 l2 _

lemma enqIds_cons_tick (rest : List SysAction) :
    enqIds (SysAction.tick :: rest) = enqIds rest := rfl

lemma enqIds_cons_worker (avail : List Bool) (rest : List SysAction) :
    enqIds (SysAction.workerRun avail :: rest) = enqIds rest := rfl

lemma enqIds_cons_enqueue (r : LoadImageRequest) (rest : List SysAction) :
    enqIds (SysAction.enqueue r :: rest) = r.id :: enqIds rest := rfl

lemma Tick_none_nil (s : SchedulerState) (ha : s.active = none) (hp : s.pending = []) :
    Tick s = (s, []) := by
  have hd : TickDispatch s = (s, []) := by
    simp [TickDispatch, ha, hp]
  simp [Tick, hd, TickComplete, ha]

lemma Tick_none_cons (s : SchedulerState) (p : LoadImageRequest) (ps : List LoadImageRequest)
    (ha : s.active = none) (hp : s.pending = p :: ps) :
    Tick s = ({ pending := ps
                active := some p
                reader := Trigger (AddRequest (toReadRequest p) s.reader) },
              [SysEvent.dispatched p.id]) := by
  have hd : TickDispatch s = ({ pending := ps
                                active := some p
                                reader := Trigger (AddRequest (toReadRequest p) s.reader) },
                                [SysEvent.dispatched p.id]) := by
    simp [TickDispatch, ha, hp]
  simp [Tick, hd, TickComplete, Trigger, AddRequest]

lemma Tick_some (s : SchedulerState) (a : LoadImageRequest) (ha : s.active = some a) :
    Tick s =
      if s.reader.bCompletedWork then
        ({ s with
             active := none
             reader := { s.reader with results := s.reader.results.dropLast } },
         [SysEvent.completed a.id (s.reader.results.getLastD defaultReadResult)])
      else (s, []) := by
  have hd : TickDispatch s = (s, []) := by
    cases hp : s.pending <;> simp [TickDispatch, ha, hp]
  by_cases hc : s.reader.bCompletedWork = true
  · simp [Tick, hd, TickComplete, ha, hc]
  · rw [Bool.not_eq_true] at hc
    simp [Tick, hd, TickComplete, ha, hc]

lemma tick_count (s : SchedulerState) :
    (evDispatchIds (Tick s).2).length + activeBit s
      = (evCompletedIds (Tick s).2).length + activeBit (Tick s).1 := by
  cases ha : s.active with
  | none =>
      cases hp : s.pending with
      | nil =>
          rw [Tick_none_nil s ha hp]
          simp [evDispatchIds, evCompletedIds, activeBit, ha]
      | cons p ps =>
          rw [Tick_none_cons s p ps ha hp]
          simp [evDispatchIds, evCompletedIds, activeBit, ha]
  | some a =>
      rw [Tick_some s a ha]
      by_cases hc : s.reader.bCompletedWork = true
      · simp [hc, evDispatchIds, evCompletedIds, activeBit, ha]
      · rw [Bool.not_eq_true] at hc
        simp [hc, evDispatchIds, evCompletedIds, activeBit, ha]

lemma tick_dispatch_pending (s : SchedulerState) :
    evDispatchIds (Tick s).2 ++ ((Tick s).1.pending.map LoadImageRequest.id)
      = s.pending.map LoadImageRequest.id := by
  cases ha : s.active with
  | none =>
      cases hp : s.pending with
      | nil =>
          rw [Tick_none_nil s ha hp]
          simp [evDispatchIds, hp]
      | cons p ps =>
          rw [Tick_none_cons s p ps ha hp]
          simp [evDispatchIds, hp]
  | some a =>
      rw [Tick_some s a ha]
      by_cases hc : s.reader.bCompletedWork = true
      · simp [hc, evDispatchIds]
      · rw [Bool.not_eq_true] at hc
        simp [hc, evDispatchIds]

lemma runTrace_count (env : DecoderEnv) :
    ∀ (acts : List SysAction) (s : SchedulerState),
      (evDispatchIds (runTrace env s acts).2).length + activeBit s
        = (evCompletedIds (runTrace env s acts).2).length + activeBit (runTrace env s acts).1
  | [], s => by simp [runTrace, evDispatchIds, evCompletedIds]
  | a :: rest, s => by
      have ih := runTrace_count env rest (stepAction env s a).1
      have hstep : (evDispatchIds (stepAction env s a).2).length + activeBit s
          = (evCompletedIds (stepAction env s a).2).length + activeBit (stepAction env s a).1 := by
        cases a with
        | tick => exact tick_count s
        | workerRun avail => simp [stepAction, evDispatchIds, evCompletedIds, activeBit]
        | enqueue r => simp [stepAction, evDispatchIds, evCompletedIds, activeBit]
      simp only [runTrace]
      rw [evDispatchIds_append, evCompletedIds_append, List.length_append, List.length_append]
      omega

lemma runTrace_dispatch_ids (env : DecoderEnv) :
    ∀ (acts : List SysAction) (s : SchedulerState),
      evDispatchIds (runTrace env s acts).2
          ++ ((runTrace env s acts).1.pending.map LoadImageRequest.id)
        = s.pending.map LoadImageRequest.id ++ enqIds acts
  | [], s => by simp [runTrace, evDispatchIds, enqIds]
  | a :: rest, s => by
      have ih := runTrace_dispatch_ids env rest (stepAction env s a).1
      simp only [runTrace]
      rw [evDispatchIds_append, List.append_assoc, ih]
      cases a with
      | tick =>
          have ht := tick_dispatch_pending s
          rw [enqIds_cons_tick, ← List.append_assoc]
          simp only [stepAction]
          rw [ht]
      | workerRun avail =>
          rw [enqIds_cons_worker, ← List.append_assoc]
          simp [stepAction, evDispatchIds]
      | enqueue r =>
          rw [enqIds_cons_enqueue, ← List.append_assoc]
          simp [stepAction, evDispatchIds]

lemma runTrace_completed_ids (env : DecoderEnv) :
    ∀ (acts : List SysAction) (s : SchedulerState) (i : Nat),
      i ∈ evCompletedIds (runTrace env s acts).2 →
      i ∈ optIds s.active ∨ i ∈ s.pending.map LoadImageRequest.id ∨ i ∈ enqIds acts
  | [], s, i => by simp [runTrace, evCompletedIds]
  | a :: rest, s, i => by
      intro hmem
      simp only [runTrace] at hmem
      rw [evCompletedIds_append, List.mem_append] at hmem
      have ih := runTrace_completed_ids env rest (stepAction env s a).1 i
      cases a with
      | tick =>
          simp only [stepAction] at hmem ih
          rw [enqIds_cons_tick]
          cases ha : s.active with
          | none =>
              cases hp : s.pending with
              | nil =>
                  rw [Tick_none_nil s ha hp] at hmem ih
                  try dsimp only at hmem ih
                  rcases hmem with hone | hrest
                  · simp [evCompletedIds] at hone
                  · rcases ih hrest with h1 | h2 | h3
                    · rw [ha] at h1
                      exact Or.inl h1
                    · rw [hp] at h2
                      exact Or.inr (Or.inl h2)
                    · exact Or.inr (Or.inr h3)
              | cons p ps =>
                  rw [Tick_none_cons s p ps ha hp] at hmem ih
                  try dsimp only at hmem ih
                  rcases hmem with hone | hrest
                  · simp [evCompletedIds] at hone
                  · rcases ih hrest with h1 | h2 | h3
                    · simp only [optIds, List.mem_singleton] at h1
                      right; left
                      simp [h1]
                    · right; left
                      simp at h2 ⊢
                      exact Or.inr h2
                    · exact Or.inr (Or.inr h3)
          | some b =>
              rw [Tick_some s b ha] at hmem ih
              by_cases hc : s.reader.bCompletedWork = true
              · rw [if_pos hc] at hmem ih
                try dsimp only at hmem ih
                rcases hmem with hone | hrest
                · simp [evCompletedIds] at hone
                  left
                  simp [optIds, hone]
                · rcases ih hrest with h1 | h2 | h3
                  · simp [optIds] at h1
                  · exact Or.inr (Or.inl h2)
                  · exact Or.inr (Or.inr h3)
              · rw [Bool.not_eq_true] at hc
                rw [hc] at hmem ih
                simp only [Bool.false_eq_true, if_false] at hmem ih
                try dsimp only at hmem ih
                rcases hmem with hone | hrest
                · simp [evCompletedIds] at hone
                · rcases ih hrest with h1 | h2 | h3
                  · rw [ha] at h1
                    exact Or.inl h1
                  · exact Or.inr (Or.inl h2)
                  · exact Or.inr (Or.inr h3)
      | workerRun avail =>
          simp only [stepAction] at hmem ih
          try dsimp only at hmem ih
          rw [enqIds_cons_worker]
          rcases hmem with hone | hrest
          · simp [evCompletedIds] at hone
          · exact ih hrest
      | enqueue r =>
          simp only [stepAction] at hmem ih
          try dsimp only at hmem ih
          rw [enqIds_cons_enqueue]
          rcases hmem with hone | hrest
          · simp [evCompletedIds] at hone
          · rcases ih hrest with h1 | h2 | h3
            · exact Or.inl h1
            · simp at h2
              rcases h2 with h2a | h2b
              · right; left
                simp [h2a]
              · right; right
                simp [h2b]
            · right; right
              simp [h3]

lemma getLastD_append_singleton {α : Type} (l1 l2 : List α) (x d : α) :
    (l1 ++ (l2 ++ [x])).getLastD d = x := by
  rw [← List.append_assoc]
  exact List.getLastD_concat d x (l1 ++ l2)

lemma processRequests_complete_results (env : DecoderEnv) :
    ∀ (reqs : List ImageReadRequest) (avail : List Bool), (∀ b ∈ avail, b = true) →
      ∀ r ∈ (processRequests env reqs avail []).1, r.outTexture ≠ none ∨ r.outError ≠ "" := by
  intro reqs avail h r hr
  rw [processRequests_all_true env reqs avail [] h] at hr
  simp at hr
  obtain ⟨q, _, hrq⟩ := hr
  rw [← hrq]
  exact processRequest_true_complete env q

lemma activeBit_le_one (s : SchedulerState) : activeBit s ≤ 1 := by
  unfold activeBit
  split <;> omega

/-- Claim C7: the GetResult operation of the worker has the precondition that at
least one result is buffered (the none outcome models the asserted precondition
violation), and under that precondition it removes and returns the last buffered
result, the most recently completed one, not the oldest; the worker pass appends
fresh results behind any accumulated ones, so the last entry is the most recent. -/
theorem claim7_get_result_lifo :
    (∀ s : ReaderState, s.results = [] → GetResult s = none) ∧
    (∀ (s : ReaderState) (l : List ImageReadResult) (r : ImageReadResult),
        s.results = l ++ [r] → GetResult s = some (r, { s with results := l })) ∧
    (∀ (env : DecoderEnv) (reqs : List ImageReadRequest) (avail : List Bool)
        (acc : List ImageReadResult),
        (processRequests env reqs avail acc).1 = acc ++ (processRequests env reqs avail []).1) := by
  refine ⟨?_, ?_, ?_⟩
  · intro s h
    simp [GetResult, h]
  · intro s l r h
    simp [GetResult, h, List.getLast?_concat, List.dropLast_concat]
  · intro env reqs avail acc
    exact (processRequests_append env reqs avail acc).1

/-- Witness for claim C7 at concrete reader states. -/
theorem claim7_witness :
    GetResult emptyReader = none ∧
    GetResult sampleReaderTwo = some (sampleResult2, { sampleReaderTwo with results := [sampleResult1] }) := by
  obtain ⟨h1, h2, _⟩ := claim7_get_result_lifo
  exact ⟨h1 emptyReader rfl, h2 sampleReaderTwo [sampleResult1] sampleResult2 rfl⟩

/-- Claim C9: on the Android carve-out platform CancelAll only logs the warning
and returns, leaving the pending queue, the ActiveRequest slot and the reader
buffers untouched. -/
theorem claim9_android_cancel_noop (s : SchedulerState) :
    CancelAll true s = (s, [androidCancelWarning]) := rfl

/-- Counterexample to claim C8: AddRequest itself never signals the worker wake
event; on a concrete idle reader the semaphore signal count is unchanged by the
enqueue, refuting that the wake event is signalled as part of enqueuing. -/
theorem claim8_counterexample :
    AddRequest sampleReadRequest emptyReader =
      { requests := [sampleReadRequest], results := [], bCompletedWork := false, semSignals := 0 } ∧
    (AddRequest sampleReadRequest emptyReader).semSignals = emptyReader.semSignals ∧
    ¬ (AddRequest sampleReadRequest emptyReader).semSignals = emptyReader.semSignals + 1 := by
  refine ⟨rfl, rfl, by decide⟩

/-- Claim C8 amended: AddRequest appends the request to the internal FIFO and
clears the completed-work flag but does not itself signal the wake event; waking
the worker is the separate Trigger operation, which the asynchronous Tick path
invokes immediately after enqueuing, so on that path the semaphore is signalled
once per dispatched request. The call is a total state transformer, so it never
blocks the caller. -/
theorem claim8_add_request (s : ReaderState) (request : ImageReadRequest)
    (sch : SchedulerState) (p : LoadImageRequest) (ps : List LoadImageRequest)
    (ha : sch.active = none) (hp : sch.pending = p :: ps) :
    AddRequest request s =
      { s with requests := s.requests ++ [request], bCompletedWork := false } ∧
    (AddRequest request s).semSignals = s.semSignals ∧
    Trigger (AddRequest request s) =
      { s with
          requests := s.requests ++ [request]
          bCompletedWork := false
          semSignals := s.semSignals + 1 } ∧
    (Tick sch).1.reader = Trigger (AddRequest (toReadRequest p) sch.reader) ∧
    (Tick sch).1.reader.semSignals = sch.reader.semSignals + 1 := by
  refine ⟨rfl, rfl, rfl, ?_, ?_⟩
  · rw [Tick_none_cons sch p ps ha hp]
  · rw [Tick_none_cons sch p ps ha hp]
    simp [Trigger, AddRequest]

/-- Witness for claim C8 amended at a concrete scheduler state. -/
theorem claim8_witness :
    (Tick { pending := [{ id := 1, imageFilename := "a.png", bForUI := false }]
            active := none
            reader := emptyReader }).1.reader.semSignals = emptyReader.semSignals + 1 := by
  exact (claim8_add_request emptyReader sampleReadRequest
    { pending := [{ id := 1, imageFilename := "a.png", bForUI := false }]
      active := none
      reader := emptyReader }
    { id := 1, imageFilename := "a.png", bForUI := false } [] rfl rfl).2.2.2.2

/-- Counterexample to claim C2: on a decodable image whose format has no GPU
mapping, the worker publishes the error text of the source code, which differs
from the message text quoted by the claim. -/
theorem claim2_counterexample :
    (processRequest sampleEnvUnsupported { imageFilename := "bad.img", bForUI := false } true).1.outError
      = "Image data is corrupted. Please contact devs" ∧
    ¬ (processRequest sampleEnvUnsupported { imageFilename := "bad.img", bForUI := false } true).1.outError
      = "image data is corrupted or unsupported" := by
  exact ⟨by decide, by decide⟩

/-- Claim C2 amended: for every dequeued request whose decode fails the worker
publishes a result carrying exactly the decode error and no texture; when the
decoded format maps to PF_Unknown it publishes the error text
"Image data is corrupted. Please contact devs" (not the message quoted in the
claim) and no texture; in both cases the request is not aborted and the loop
continues processing the next queued request, so per-request errors never stop
the worker pass. -/
theorem claim2_error_paths (env : DecoderEnv) (request : ImageReadRequest) (a : Bool)
    (rest : List ImageReadRequest) (avail : List Bool) (acc : List ImageReadResult) :
    (0 < (env.importFileAsImage request.imageFilename).2.length →
      processRequest env request a =
        ({ imageFilename := request.imageFilename
           outError := (env.importFileAsImage request.imageFilename).2
           outTexture := none }, false)) ∧
    ((env.importFileAsImage request.imageFilename).2.length = 0 →
      determinePixelFormat (env.importFileAsImage request.imageFilename).1.format request.bForUI
          = EPixelFormat.PF_Unknown →
      processRequest env request a =
        ({ imageFilename := request.imageFilename
           outError := corruptedError
           outTexture := none }, false)) ∧
    ((processRequest env request (avail.headD true)).2 = false →
      processRequests env (request :: rest) avail acc =
        processRequests env rest avail.tail
          (acc ++ [(processRequest env request (avail.headD true)).1])) := by
  refine ⟨?_, ?_, ?_⟩
  · intro h
    simp [processRequest, h]
  · intro h1 h2
    have hnot : ¬ 0 < (env.importFileAsImage request.imageFilename).2.length := by omega
    simp [processRequest, hnot, h2]
  · intro h
    simp only [processRequests, h, Bool.false_eq_true, if_false]

/-- Witness for claim C2 amended at concrete decoder stubs. -/
theorem claim2_witness :
    processRequest sampleEnvDecodeFail { imageFilename := "broken.png", bForUI := false } true
      = ({ imageFilename := "broken.png", outError := "invalid header", outTexture := none }, false) ∧
    processRequest sampleEnvUnsupported { imageFilename := "bad.img", bForUI := false } true
      = ({ imageFilename := "bad.img", outError := corruptedError, outTexture := none }, false) ∧
    processRequests sampleEnvUnsupported
        [{ imageFilename := "bad.img", bForUI := false }, { imageFilename := "bad2.img", bForUI := true }] [] []
      = processRequests sampleEnvUnsupported [{ imageFilename := "bad2.img", bForUI := true }] []
          ([] ++ [(processRequest sampleEnvUnsupported { imageFilename := "bad.img", bForUI := false } true).1]) := by
  obtain ⟨h1, _, _⟩ := claim2_error_paths sampleEnvDecodeFail
    { imageFilename := "broken.png", bForUI := false } true [] [] []
  obtain ⟨_, g2, _⟩ := claim2_error_paths sampleEnvUnsupported
    { imageFilename := "bad.img", bForUI := false } true [] [] []
  obtain ⟨_, _, g3⟩ := claim2_error_paths sampleEnvUnsupported
    { imageFilename := "bad.img", bForUI := false } true
    [{ imageFilename := "bad2.img", bForUI := true }] [] []
  exact ⟨h1 (by decide), g2 (by decide) (by decide), g3 (by decide)⟩

/-- Counterexample to claim C3: a G16 image decoded for a UI request keeps the
PF_G16 texture layout, refuting that the resulting texture pixel layout is
PF_B8G8R8A8 regardless of source format. -/
theorem claim3_counterexample :
    ((processRequest sampleEnvG16 { imageFilename := "gray.png", bForUI := true } true).1.outTexture.map
        Texture.pixelFormat) = some EPixelFormat.PF_G16 ∧
    ¬ ((processRequest sampleEnvG16 { imageFilename := "gray.png", bForUI := true } true).1.outTexture.map
        Texture.pixelFormat) = some EPixelFormat.PF_B8G8R8A8 := by
  exact ⟨by decide, by decide⟩

/-- Claim C3 amended: for every successfully decoded request processed with a
placeholder available, a UI request has its pixel buffer re-encoded to BGRA8 by
the CopyTo step and its result marked SRGB regardless of source format, but the
texture pixel layout follows the format switch: PF_B8G8R8A8 exactly for the G8,
BGRA8, BGRE8 and RGBA16 sources, while G16 keeps PF_G16 and RGBA16F keeps
PF_FloatRGBA even for UI requests; a non-UI request keeps the mapped native
layout, the decoded color-space flag and the unconverted pixel bytes. -/
theorem claim3_ui_reencode (env : DecoderEnv) (request : ImageReadRequest)
    (h1 : (env.importFileAsImage request.imageFilename).2.length = 0)
    (h2 : determinePixelFormat (env.importFileAsImage request.imageFilename).1.format request.bForUI
        ≠ EPixelFormat.PF_Unknown) :
    (request.bForUI = true →
      (processRequest env request true).1.outTexture =
        some { imageFilename := request.imageFilename
               pixelFormat := determinePixelFormat
                 (env.importFileAsImage request.imageFilename).1.format true
               sizeX := (env.importFileAsImage request.imageFilename).1.sizeX
               sizeY := (env.importFileAsImage request.imageFilename).1.sizeY
               srgb := true
               mipData := (copyTo env.convertPixels
                 (env.importFileAsImage request.imageFilename).1.buffer ERawImageFormat.BGRA8).bytes }) ∧
    (request.bForUI = false →
      (processRequest env request true).1.outTexture =
        some { imageFilename := request.imageFilename
               pixelFormat := determinePixelFormat
                 (env.importFileAsImage request.imageFilename).1.format false
               sizeX := (env.importFileAsImage request.imageFilename).1.sizeX
               sizeY := (env.importFileAsImage request.imageFilename).1.sizeY
               srgb := (env.importFileAsImage request.imageFilename).1.srgb
               mipData := (env.importFileAsImage request.imageFilename).1.buffer.bytes }) ∧
    (copyTo env.convertPixels (env.importFileAsImage request.imageFilename).1.buffer
        ERawImageFormat.BGRA8).encoding = ERawImageFormat.BGRA8 ∧
    (∀ f : ERawImageFormat, determinePixelFormat f true = EPixelFormat.PF_B8G8R8A8 ↔
        (f = ERawImageFormat.G8 ∨ f = ERawImageFormat.BGRA8 ∨ f = ERawImageFormat.BGRE8 ∨
         f = ERawImageFormat.RGBA16)) := by
  have hnot : ¬ 0 < (env.importFileAsImage request.imageFilename).2.length := by omega
  refine ⟨?_, ?_, rfl, ?_⟩
  · intro hu
    rw [hu] at h2
    simp [processRequest, hnot, hu, h2, uiTransform, copyTo, AsyncReallocateTexture,
      createDummyTexture]
  · intro hu
    rw [hu] at h2
    simp [processRequest, hnot, hu, h2, uiTransform, AsyncReallocateTexture, createDummyTexture]
  · intro f
    cases f <;> decide

/-- Witness for claim C3 amended on the concrete G16 decoder stub. -/
theorem claim3_witness :
    (processRequest sampleEnvG16 { imageFilename := "gray.png", bForUI := true } true).1.outTexture =
      some { imageFilename := "gray.png", pixelFormat := EPixelFormat.PF_G16, sizeX := 2, sizeY := 2,
             srgb := true, mipData := [7, 7] } ∧
    (processRequest sampleEnvG16 { imageFilename := "gray.png", bForUI := false } true).1.outTexture =
      some { imageFilename := "gray.png", pixelFormat := EPixelFormat.PF_G16, sizeX := 2, sizeY := 2,
             srgb := false, mipData := [7, 7] } := by
  obtain ⟨hu, _, _, _⟩ := claim3_ui_reencode sampleEnvG16
    { imageFilename := "gray.png", bForUI := true } (by decide) (by decide)
  obtain ⟨_, hn, _, _⟩ := claim3_ui_reencode sampleEnvG16
    { imageFilename := "gray.png", bForUI := false } (by decide) (by decide)
  exact ⟨hu rfl, hn rfl⟩

/-- Counterexample to claim C4: when no placeholder becomes available for a
concrete request, the result buffer does hold an entry for that request, with
both texture and error absent, refuting that the buffer is left without an
entry. -/
theorem claim4_counterexample :
    (processRequests sampleEnvBGRA [{ imageFilename := "a.png", bForUI := false }] [false] []).1 =
      [{ imageFilename := "a.png", outError := "", outTexture := none }] ∧
    ¬ (processRequests sampleEnvBGRA [{ imageFilename := "a.png", bForUI := false }] [false] []).1 = [] ∧
    (processRequests sampleEnvBGRA [{ imageFilename := "a.png", bForUI := false }] [false] []).2.2 = false := by
  exact ⟨by decide, by decide, by decide⟩

/-- Claim C4 amended: when no placeholder becomes available for a dequeued
request that decoded to a supported format, the worker aborts that request and
the pass without completing its result, but the entry already emplaced into the
result buffer remains there with both texture and error absent (the
interrupted-pipeline defect shape) and the remaining queued requests stay
unprocessed; conversely, whenever every wait produces a placeholder, every
buffered result carries a texture or a non-empty error. -/
theorem claim4_abort (env : DecoderEnv) (request : ImageReadRequest)
    (rest : List ImageReadRequest) (availRest : List Bool) (acc : List ImageReadResult)
    (h1 : (env.importFileAsImage request.imageFilename).2.length = 0)
    (h2 : determinePixelFormat (env.importFileAsImage request.imageFilename).1.format request.bForUI
        ≠ EPixelFormat.PF_Unknown) :
    processRequests env (request :: rest) (false :: availRest) acc =
      (acc ++ [{ imageFilename := request.imageFilename, outError := "", outTexture := none }],
       rest, false) ∧
    (∀ (reqs : List ImageReadRequest) (avail : List Bool), (∀ b ∈ avail, b = true) →
      ∀ r ∈ (processRequests env reqs avail []).1, r.outTexture ≠ none ∨ r.outError ≠ "") := by
  constructor
  · have hnot : ¬ 0 < (env.importFileAsImage request.imageFilename).2.length := by omega
    have hstep : processRequest env request false =
        ({ imageFilename := request.imageFilename, outError := "", outTexture := none }, true) := by
      simp [processRequest, hnot, h2]
    simp [processRequests, hstep]
  · intro reqs avail h
    exact processRequests_complete_results env reqs avail h

/-- Witness for claim C4 amended on the concrete BGRA8 decoder stub. -/
theorem claim4_witness :
    processRequests sampleEnvBGRA [{ imageFilename := "a.png", bForUI := false }] [false] [] =
      ([{ imageFilename := "a.png", outError := "", outTexture := none }], [], false) ∧
    (((processRequests sampleEnvBGRA [{ imageFilename := "a.png", bForUI := false }] [true] []).1.getLastD
        defaultReadResult).outTexture ≠ none ∨
      ((processRequests sampleEnvBGRA [{ imageFilename := "a.png", bForUI := false }] [true] []).1.getLastD
        defaultReadResult).outError ≠ "") := by
  obtain ⟨ha, hb⟩ := claim4_abort sampleEnvBGRA { imageFilename := "a.png", bForUI := false }
    [] [] [] (by decide) (by decide)
  constructor
  · exact ha
  · exact hb [{ imageFilename := "a.png", bForUI := false }] [true] (by decide) _ (by decide)

/-- Claim C5: LoadImageSync first drains outstanding worker requests, enqueues
the single request directly to the reader (bypassing the pending queue and the
ActiveRequest slot, on which it never acts), drains until the reader reports
completed work, and returns the buffered result whose filename equals the
requested one, reporting success exactly when its error string is empty. Stated
under the assumption that every construction wait produces a placeholder, the
pipeline not being in shutdown. -/
theorem claim5_load_image_sync (env : DecoderEnv) (avail1 avail2 : List Bool)
    (imageFilename : String) (bForUI : Bool) (s : ReaderState)
    (h1 : ∀ b ∈ avail1, b = true) (h2 : ∀ b ∈ avail2, b = true) :
    (BlockTillAllRequestsFinished env avail2
        (AddRequest { imageFilename := imageFilename, bForUI := bForUI }
          (BlockTillAllRequestsFinished env avail1 s))).bCompletedWork = true ∧
    ((BlockTillAllRequestsFinished env avail2
        (AddRequest { imageFilename := imageFilename, bForUI := bForUI }
          (BlockTillAllRequestsFinished env avail1 s))).results.getLastD
        defaultReadResult).imageFilename = imageFilename ∧
    (LoadImageSync env avail1 avail2 imageFilename bForUI s).1.requests = [] ∧
    (LoadImageSync env avail1 avail2 imageFilename bForUI s).2.outError =
      ((BlockTillAllRequestsFinished env avail2
          (AddRequest { imageFilename := imageFilename, bForUI := bForUI }
            (BlockTillAllRequestsFinished env avail1 s))).results.getLastD
          defaultReadResult).outError ∧
    ((LoadImageSync env avail1 avail2 imageFilename bForUI s).2.bSuccess = true ↔
      (LoadImageSync env avail1 avail2 imageFilename bForUI s).2.outError = "") := by
  have hstep2 : ∀ t : ReaderState, t.bCompletedWork = false →
      BlockTillAllRequestsFinished env avail2 t =
        { t with
            results := t.results ++ t.requests.map (fun q => (processRequest env q true).1)
            requests := []
            bCompletedWork := true } := by
    intro t ht
    simp only [BlockTillAllRequestsFinished, ht, Bool.false_eq_true, if_false]
    rw [processRequests_all_true env t.requests avail2 t.results h2]
  have hs3 := hstep2
    (AddRequest { imageFilename := imageFilename, bForUI := bForUI }
      (BlockTillAllRequestsFinished env avail1 s)) rfl
  have hlast : ((BlockTillAllRequestsFinished env avail2
      (AddRequest { imageFilename := imageFilename, bForUI := bForUI }
        (BlockTillAllRequestsFinished env avail1 s))).results.getLastD defaultReadResult)
      = (processRequest env { imageFilename := imageFilename, bForUI := bForUI } true).1 := by
    rw [hs3]
    simp only [AddRequest, List.map_append, List.map_cons, List.map_nil]
    exact getLastD_append_singleton _ _ _ _
  refine ⟨?_, ?_, ?_, ?_, ?_⟩
  · rw [hs3]
  · rw [hlast]
    exact processRequest_filename env { imageFilename := imageFilename, bForUI := bForUI } true
  · simp only [LoadImageSync]
    rw [hs3]
  · simp only [LoadImageSync]
  · simp only [LoadImageSync]
    exact beq_iff_eq

/-- Witness for claim C5 at a concrete decoder stub and empty avail oracles. -/
theorem claim5_witness :
    (LoadImageSync sampleEnvBGRA [] [] "photo.png" false emptyReader).1.requests = [] ∧
    ((BlockTillAllRequestsFinished sampleEnvBGRA []
        (AddRequest { imageFilename := "photo.png", bForUI := false }
          (BlockTillAllRequestsFinished sampleEnvBGRA [] emptyReader))).results.getLastD
        defaultReadResult).imageFilename = "photo.png" ∧
    (BlockTillAllRequestsFinished sampleEnvBGRA []
        (AddRequest { imageFilename := "photo.png", bForUI := false }
          (BlockTillAllRequestsFinished sampleEnvBGRA [] emptyReader))).bCompletedWork = true := by
  obtain ⟨w1, w2, w3, _, _⟩ := claim5_load_image_sync sampleEnvBGRA [] [] "photo.png" false
    emptyReader (by decide) (by decide)
  exact ⟨w3, w2, w1⟩

/-- Claim C1: in every Tick, a request is dispatched to the worker exactly when
the ActiveRequest slot is empty and the pending queue is non-empty, and then the
dequeued head becomes the ActiveRequest; a result is delivered to the active
delegate exactly when the slot is occupied and the worker reports completed work
at entry, after which the slot is cleared; consequently along every action trace
started with an empty slot the number of dispatches never exceeds the number of
completions plus one (at most one request in flight), and when all request
identities are distinct no request is ever dispatched twice. -/
theorem claim1_tick_protocol :
    (∀ s : SchedulerState, ¬ evDispatchIds (Tick s).2 = [] ↔
        (s.active = none ∧ ¬ s.pending = [])) ∧
    (∀ (s : SchedulerState) (p : LoadImageRequest) (ps : List LoadImageRequest),
        s.active = none → s.pending = p :: ps →
        (Tick s).1.active = some p ∧ (Tick s).2 = [SysEvent.dispatched p.id]) ∧
    (∀ s : SchedulerState, ¬ evCompletedIds (Tick s).2 = [] ↔
        (s.active.isSome = true ∧ s.reader.bCompletedWork = true)) ∧
    (∀ (s : SchedulerState) (a : LoadImageRequest), s.active = some a →
        s.reader.bCompletedWork = true →
        (Tick s).1.active = none ∧
        (Tick s).2 = [SysEvent.completed a.id (s.reader.results.getLastD defaultReadResult)]) ∧
    (∀ (env : DecoderEnv) (s : SchedulerState) (acts : List SysAction), s.active = none →
        (evDispatchIds (runTrace env s acts).2).length
          ≤ (evCompletedIds (runTrace env s acts).2).length + 1) ∧
    (∀ (env : DecoderEnv) (s : SchedulerState) (acts : List SysAction), s.active = none →
        (s.pending.map LoadImageRequest.id ++ enqIds acts).Nodup →
        (evDispatchIds (runTrace env s acts).2).Nodup) := by
  refine ⟨?_, ?_, ?_, ?_, ?_, ?_⟩
  · intro s
    cases ha : s.active with
    | none =>
        cases hp : s.pending with
        | nil =>
            rw [Tick_none_nil s ha hp]
            simp [evDispatchIds]
        | cons p ps =>
            rw [Tick_none_cons s p ps ha hp]
            simp [evDispatchIds]
    | some b =>
        rw [Tick_some s b ha]
        by_cases hc : s.reader.bCompletedWork = true
        · rw [if_pos hc]
          simp [evDispatchIds]
        · rw [Bool.not_eq_true] at hc
          rw [hc]
          simp [evDispatchIds]
  · intro s p ps ha hp
    rw [Tick_none_cons s p ps ha hp]
    exact ⟨rfl, rfl⟩
  · intro s
    cases ha : s.active with
    | none =>
        cases hp : s.pending with
        | nil =>
            rw [Tick_none_nil s ha hp]
            simp [evCompletedIds]
        | cons p ps =>
            rw [Tick_none_cons s p ps ha hp]
            simp [evCompletedIds]
    | some b =>
        rw [Tick_some s b ha]
        by_cases hc : s.reader.bCompletedWork = true
        · rw [if_pos hc]
          simp [evCompletedIds, hc]
        · rw [Bool.not_eq_true] at hc
          rw [hc]
          simp [evCompletedIds, hc]
  · intro s a ha hc
    rw [Tick_some s a ha, if_pos hc]
    exact ⟨rfl, rfl⟩
  · intro env s acts ha
    have hcount := runTrace_count env acts s
    have hbit : activeBit s = 0 := by simp [activeBit, ha]
    have hle := activeBit_le_one (runTrace env s acts).1
    omega
  · intro env s acts ha hnodup
    have hids := runTrace_dispatch_ids env acts s
    rw [← hids] at hnodup
    exact hnodup.of_append_left

/-- Witness for claim C1 at a concrete state and trace. -/
theorem claim1_witness :
    (Tick { pending := [{ id := 1, imageFilename := "a.png", bForUI := false }]
            active := none
            reader := emptyReader }).1.active
        = some { id := 1, imageFilename := "a.png", bForUI := false } ∧
    (evDispatchIds (runTrace sampleEnvBGRA
        { pending := [{ id := 1, imageFilename := "a.png", bForUI := false }]
          active := none
          reader := emptyReader }
        [SysAction.tick, SysAction.workerRun [], SysAction.tick, SysAction.tick]).2).length
      ≤ (evCompletedIds (runTrace sampleEnvBGRA
        { pending := [{ id := 1, imageFilename := "a.png", bForUI := false }]
          active := none
          reader := emptyReader }
        [SysAction.tick, SysAction.workerRun [], SysAction.tick, SysAction.tick]).2).length + 1 ∧
    (evDispatchIds (runTrace sampleEnvBGRA
        { pending := [{ id := 1, imageFilename := "a.png", bForUI := false }]
          active := none
          reader := emptyReader }
        [SysAction.tick, SysAction.workerRun [], SysAction.tick, SysAction.tick]).2).Nodup := by
  obtain ⟨_, c2, _, _, c5, c6⟩ := claim1_tick_protocol
  refine ⟨(c2 _ { id := 1, imageFilename := "a.png", bForUI := false } [] rfl rfl).1, ?_, ?_⟩
  · exact c5 sampleEnvBGRA _ _ rfl
  · exact c6 sampleEnvBGRA _ _ rfl (by decide)

/-- Claim C6: on a non-carve-out platform CancelAll empties the pending queue,
invalidates the ActiveRequest slot without executing its delegate (no completion
event and no log is produced by the call), and clears the reader buffers;
afterwards no sequence of ticks, worker passes and fresh enqueues ever executes
a completion delegate of a request that was pending or active at cancellation
time (fresh meaning the enqueued identities avoid those of the cancelled
requests). -/
theorem claim6_cancel_all (env : DecoderEnv) (s : SchedulerState) (acts : List SysAction)
    (hfresh : ∀ i ∈ enqIds acts, ¬ i ∈ cancelledIds s) :
    (CancelAll false s).1 = { pending := [], active := none, reader := Clear s.reader } ∧
    (CancelAll false s).2 = [] ∧
    ((evCompletedIds (runTrace env (CancelAll false s).1 acts).2).any
        (fun i => memId i (cancelledIds s))) = false := by
  refine ⟨rfl, rfl, ?_⟩
  by_contra hany
  rw [Bool.not_eq_false, List.any_eq_true] at hany
  obtain ⟨i, hi, hmem⟩ := hany
  rw [memId_iff] at hmem
  have hreach := runTrace_completed_ids env acts (CancelAll false s).1 i hi
  rcases hreach with hcase | hcase | hcase
  · simp [CancelAll, optIds] at hcase
  · simp [CancelAll] at hcase
  · exact hfresh i hcase hmem

/-- Witness for claim C6 at a concrete cancelled state and trace. -/
theorem claim6_witness :
    (CancelAll false
        { pending := [{ id := 5, imageFilename := "old.png", bForUI := false }]
          active := none
          reader := emptyReader }).1
      = { pending := [], active := none
          reader := Clear emptyReader } ∧
    ((evCompletedIds (runTrace sampleEnvBGRA
        (CancelAll false
          { pending := [{ id := 5, imageFilename := "old.png", bForUI := false }]
            active := none
            reader := emptyReader }).1
        [SysAction.enqueue { id := 7, imageFilename := "new.png", bForUI := false },
         SysAction.tick, SysAction.workerRun [], SysAction.tick]).2).any
        (fun i => memId i (cancelledIds
          { pending := [{ id := 5, imageFilename := "old.png", bForUI := false }]
            active := none
            reader := emptyReader }))) = false := by
  obtain ⟨w1, _, w3⟩ := claim6_cancel_all sampleEnvBGRA
    { pending := [{ id := 5, imageFilename := "old.png", bForUI := false }]
      active := none
      reader := emptyReader }
    [SysAction.enqueue { id := 7, imageFilename := "new.png", bForUI := false },
     SysAction.tick, SysAction.workerRun [], SysAction.tick]
    (by decide)
  exact ⟨w1, w3⟩

/-- Claim C10: calling LoadImageAsync or LoadHDRIAsync with an invalid world
context object returns immediately: the scheduler state, the pending queue
included, and the out parameters are returned unchanged, and since the request
was never enqueued, no later trace executes its completion delegate as long as
its identity is not independently present or re-enqueued. -/
theorem claim10_invalid_context (env : DecoderEnv) (requestA requestH : LoadImageRequest)
    (isAndroid : Bool) (s : SchedulerState) (outs : ImageOutParams) (acts : List SysAction)
    (hA1 : ¬ requestA.id ∈ cancelledIds s) (hA2 : ¬ requestA.id ∈ enqIds acts) :
    LoadImageAsync false requestA s outs = (s, outs) ∧
    LoadHDRIAsync false isAndroid requestH s outs = (s, outs) ∧
    ((evCompletedIds (runTrace env (LoadImageAsync false requestA s outs).1 acts).2).any
        (fun i => i == requestA.id)) = false := by
  refine ⟨rfl, rfl, ?_⟩
  by_contra hany
  rw [Bool.not_eq_false, List.any_eq_true] at hany
  obtain ⟨i, hi, hmem⟩ := hany
  rw [beq_iff_eq] at hmem
  rw [hmem] at hi
  have hreach := runTrace_completed_ids env acts (LoadImageAsync false requestA s outs).1
    requestA.id hi
  rcases hreach with hcase | hcase | hcase
  · exact hA1 (List.mem_append.mpr (Or.inl hcase))
  · exact hA1 (List.mem_append.mpr (Or.inr hcase))
  · exact hA2 hcase

/-- Witness for claim C10 at a concrete state and trace. -/
theorem claim10_witness :
    LoadImageAsync false { id := 9, imageFilename := "x.png", bForUI := false }
        { pending := [], active := none, reader := emptyReader }
        { outTexture := none, bSuccess := false, outError := "" }
      = ({ pending := [], active := none, reader := emptyReader },
         { outTexture := none, bSuccess := false, outError := "" }) ∧
    LoadHDRIAsync false true { id := 9, imageFilename := "x.png", bForUI := false }
        { pending := [], active := none, reader := emptyReader }
        { outTexture := none, bSuccess := false, outError := "" }
      = ({ pending := [], active := none, reader := emptyReader },
         { outTexture := none, bSuccess := false, outError := "" }) ∧
    ((evCompletedIds (runTrace sampleEnvBGRA
        (LoadImageAsync false { id := 9, imageFilename := "x.png", bForUI := false }
          { pending := [], active := none, reader := emptyReader }
          { outTexture := none, bSuccess := false, outError := "" }).1
        [SysAction.tick, SysAction.workerRun [], SysAction.tick]).2).any
        (fun i => i == 9)) = false := by
  obtain ⟨w1, w2, w3⟩ := claim10_invalid_context sampleEnvBGRA
    { id := 9, imageFilename := "x.png", bForUI := false }
    { id := 9, imageFilename := "x.png", bForUI := false } true
    { pending := [], active := none, reader := emptyReader }
    { outTexture := none, bSuccess := false, outError := "" }
    [SysAction.tick, SysAction.workerRun [], SysAction.tick]
    (by decide) (by decide)
  exact ⟨w1, w2, w3⟩

end RuntimeImageLoaderModel
